import Mathlib

/-
Verification of the remote command-execution agent
(scripts/command_listener.py) against its specification.

The Python source is shallowly embedded: pure fragments become Lean
functions; external library calls (json.loads, Supabase writes, webcam
and sound devices, the realtime channel) become explicit parameters or
outcome values; Python exceptions become Except / Option values; the
module-level running_commands dict becomes an explicit map from slot
names to booleans that is passed and returned.
-/

set_option autoImplicit false

namespace LoginMonitor

/-- JSON-like values: the shape of command records, arguments and results
(Python dicts, lists, strings, numbers, booleans and None). -/
inductive Json where
  | null
  | bool (b : Bool)
  | num (n : Int)
  | str (s : String)
  | arr (elems : List Json)
  | obj (fields : List (String × Json))

mutual
/-- Structural equality test on JSON values, mirroring the equality used by
the remote store when a completion write matches rows by id. -/
def Json.beq : Json → Json → Bool
  | .null, .null => true
  | .bool a, .bool b => a == b
  | .num a, .num b => a == b
  | .str a, .str b => a == b
  | .arr xs, .arr ys => Json.beqList xs ys
  | .obj xs, .obj ys => Json.beqFields xs ys
  | _, _ => false

/-- Elementwise equality of JSON arrays. -/
def Json.beqList : List Json → List Json → Bool
  | [], [] => true
  | x :: xs, y :: ys => Json.beq x y && Json.beqList xs ys
  | _, _ => false

/-- Fieldwise equality of JSON objects. -/
def Json.beqFields : List (String × Json) → List (String × Json) → Bool
  | [], [] => true
  | (k1, v1) :: xs, (k2, v2) :: ys => k1 == k2 && Json.beq v1 v2 && Json.beqFields xs ys
  | _, _ => false
end

/-- A Python dict with string keys, as an association list (keys unique). -/
abbrev Row := List (String × Json)

/-- Dict read: first binding of the key, none when absent (KeyError site). -/
def dictGet : Row → String → Option Json
  | [], _ => none
  | (k, v) :: rest, key => if k = key then some v else dictGet rest key

/-- Dict write: replace the binding of the key, or append it. -/
def dictSet : Row → String → Json → Row
  | [], key, v => [(key, v)]
  | (k, w) :: rest, key, v =>
    if k = key then (key, v) :: rest else (k, w) :: dictSet rest key v

/-- ASCII lowercase of one character, the effect of the Python str.lower
builtin on the ASCII command names this agent uses. -/
def lowerChar (c : Char) : Char :=
  if c.isUpper then Char.ofNat (c.toNat + 32) else c

/-- The str.lower builtin (modelled characterwise so that it computes by
structural recursion). -/
def pyLowerStr (s : String) : String :=
  String.mk (s.data.map lowerChar)

/-- The .lower() call on command['command']: defined only on strings; any
other value raises AttributeError, which the outer handler catches. -/
def pyLower : Json → Except String String
  | Json.str s => Except.ok (pyLowerStr s)
  | _ => Except.error "AttributeError"

/-- The static handler registry keys of CommandListener.__init__. -/
def handlerNames : List String :=
  ["status", "screenshot", "photo", "location", "battery", "wifiinfo",
   "sysinfo", "audio", "alarm", "findme", "stopfind", "stop",
   "listnetworks", "appusage", "processes", "lockscreen", "shutdown",
   "restart"]

/-- Outcome of process_command on one delivered record: which handler (if
any) ran and with which normalized arguments, the completion write that was
handed to update_command_result (command id paired with the result), and
whether the outer except branch fired (caught-and-logged path). -/
structure DispatchOutcome where
  handlerCalled : Option (String × Json)
  completion : Option (Json × Json)
  errorLogged : Bool

/-- The outcome of the outer except branch of process_command: the error is
logged, no handler result is produced and no completion write happens. -/
def caughtOutcome : DispatchOutcome :=
  { handlerCalled := none, completion := none, errorLogged := true }

/-- Argument normalization of process_command: args defaults to the empty
dict; a string value is parsed as JSON (jsonParse models json.loads, none
meaning the parse raised) and a parse failure is replaced by the empty
dict rather than failing the command. -/
def normalizeArgs (jsonParse : String → Option Json) (command : Row) : Json :=
  match (dictGet command "args").getD (Json.obj []) with
  | Json.str s =>
    match jsonParse s with
    | some v => v
    | none => Json.obj []
  | v => v

/-- Shallow embedding of process_command. jsonParse stands for json.loads;
behavior gives the observable behavior of each registered handler, with
Except.error meaning the handler itself raised. The whole body sits in a
try/except whose except branch only logs; in particular a raising handler
reaches no completion write, and update_command_result is attempted at
most once per record. -/
def process_command (jsonParse : String → Option Json)
    (behavior : String → Json → Except String Json)
    (command : Row) : DispatchOutcome :=
  match dictGet command "id" with
  | none => caughtOutcome
  | some cmd_id =>
    match dictGet command "command" with
    | none => caughtOutcome
    | some rawName =>
      match pyLower rawName with
      | Except.error _ => caughtOutcome
      | Except.ok cmd_name =>
        let cmd_args := normalizeArgs jsonParse command
        if handlerNames.contains cmd_name then
          match behavior cmd_name cmd_args with
          | Except.error _ =>
            { handlerCalled := some (cmd_name, cmd_args), completion := none,
              errorLogged := true }
          | Except.ok result =>
            { handlerCalled := some (cmd_name, cmd_args),
              completion := some (cmd_id, result), errorLogged := false }
        else
          { handlerCalled := none,
            completion := some (cmd_id, Json.obj
              [("success", Json.bool false),
               ("error", Json.str ("Unknown command: " ++ cmd_name))]),
            errorLogged := false }

/-! ## Running-task slot map (self.running_commands) -/

/-- Slot update: running_commands[k] = b. The map is total, with absent
keys read as false (dict.get of a missing key is None, which is falsy). -/
def setSlot (m : String → Bool) (k : String) (b : Bool) : String → Bool :=
  fun k2 => if k2 = k then b else m k2

/-- Observable outcome of cmd_stop: the slot map after the writes, the
stopped list and the message, plus the returned result dict. -/
structure StopOutcome where
  slots : String → Bool
  stopped : List String
  message : String
  result : Json

/-- Shallow embedding of cmd_stop. sdStopOk tells whether the sd.stop()
call returned normally (its try/except appends nothing when it raises).
The alarm and findme slots are cleared and collected only when active;
the audio entry is appended whenever sd.stop() returned normally. -/
def cmd_stop (sdStopOk : Bool) (m : String → Bool) : StopOutcome :=
  let p1 := if m "alarm" then (setSlot m "alarm" false, ["alarm"]) else (m, [])
  let p2 := if p1.1 "findme" then (setSlot p1.1 "findme" false, p1.2 ++ ["findme"])
            else p1
  let stopped := if sdStopOk then p2.2 ++ ["audio"] else p2.2
  let message := if stopped.isEmpty then "No active commands to stop"
                 else "Stopped: " ++ String.intercalate ", " stopped
  { slots := p2.1, stopped := stopped, message := message,
    result := Json.obj [("success", Json.bool true),
                        ("stopped", Json.arr (stopped.map Json.str)),
                        ("message", Json.str message)] }

/-- Shallow embedding of cmd_stopfind: clear the findme slot and return a
fixed success dict. -/
def cmd_stopfind (m : String → Bool) : (String → Bool) × Json :=
  (setSlot m "findme" false,
   Json.obj [("success", Json.bool true), ("message", Json.str "Find Me stopped")])

/-! ## Background task loops (cmd_alarm.play_alarm, cmd_findme.find_loop) -/

/-- Iterations executed by the cancellable while loop. The readings list
gives the successive values the loop reads from its slot in the shared
map; its length bounds the iterations the duration allows (the wall-clock
guard is external). The loop breaks on the first false reading. -/
def loopIterations : List Bool → Nat
  | [] => 0
  | r :: rs => if r then loopIterations rs + 1 else 0

/-- The play_alarm thread body of cmd_alarm: beep while time remains and
the alarm slot reads true, then unconditionally write false to the alarm
slot. mapAtExit is the shared map at the moment the loop exits. -/
def play_alarm (readings : List Bool) (mapAtExit : String → Bool) :
    Nat × (String → Bool) :=
  (loopIterations readings, setSlot mapAtExit "alarm" false)

/-- The find_loop thread body of cmd_findme: beep and report location while
time remains and the findme slot reads true, then unconditionally write
false to the findme slot. -/
def find_loop (readings : List Bool) (mapAtExit : String → Bool) :
    Nat × (String → Bool) :=
  (loopIterations readings, setSlot mapAtExit "findme" false)

/-! ## cmd_photo -/

/-- The int(args.get(key, dflt)) idiom: none means the lookup or the int
conversion raised (caught by the per-handler try/except). -/
def argInt (args : Json) (key : String) (dflt : Int) : Option Int :=
  match args with
  | Json.obj fields =>
    match dictGet fields key with
    | none => some dflt
    | some (Json.num n) => some n
    | some (Json.str s) => s.toInt?
    | some (Json.bool b) => some (if b then 1 else 0)
    | some _ => none
  | _ => none

/-- Shallow embedding of cmd_photo: the count is clamped with min(count, 5)
and the capture loop runs range(count) times. The first component is the
number of cap.read() attempts; readOk i tells whether attempt i returned a
frame, webcamOpens whether cv2.VideoCapture(0) opened. -/
def cmd_photo (readOk : Nat → Bool) (webcamOpens : Bool) (args : Json) :
    Nat × Json :=
  match argInt args "count" 1 with
  | none => (0, Json.obj [("success", Json.bool false),
                          ("error", Json.str "invalid count")])
  | some c =>
    let count := min c 5
    if webcamOpens then
      let attempts := count.toNat
      let captured := ((List.range attempts).filter readOk).length
      (attempts,
       Json.obj [("success", Json.bool true),
                 ("message", Json.str ("Captured " ++ toString captured ++ " photo(s)"))])
    else
      (0, Json.obj [("success", Json.bool false),
                    ("error", Json.str "No webcam found")])

/-! ## The listen control flow and transport selection -/

/-- Which command source delivered a record. -/
inductive Mode where
  | push
  | poll
deriving DecidableEq

/-- Observable events of the listen control flow, in program order. -/
inductive Event where
  | sweep
  | heartbeatStart
  | processed (m : Mode) (cmdId : String)
  | logFallback
  | logStop
  | logPollingOnly
  | logNoDevice
deriving DecidableEq

/-- How the asyncio.run(listen_realtime()) call returned control: a user
interrupt, or an exception from establishing or running the subscription. -/
inductive RealtimeOutcome where
  | keyboardInterrupt
  | failed (msg : String)

/-- Shallow embedding of listen as its event trace. configured is whether
device_id is set; pushCmds are the records delivered by the realtime
channel before outcome ended it; pollCycles are the pending batches the
polling loop fetches per 3-second cycle. After a realtime failure the
fallback log is emitted once and listen_polling serves every later record;
the polling loop never returns to realtime. -/
def listen (configured realtimeAvailable : Bool) (outcome : RealtimeOutcome)
    (pushCmds : List String) (pollCycles : List (List String)) : List Event :=
  if configured then
    Event.sweep :: Event.heartbeatStart ::
      (if realtimeAvailable then
        pushCmds.map (Event.processed Mode.push) ++
          (match outcome with
           | RealtimeOutcome.keyboardInterrupt => [Event.logStop]
           | RealtimeOutcome.failed _ =>
             Event.logFallback :: (pollCycles.flatten.map (Event.processed Mode.poll)))
       else Event.logPollingOnly :: (pollCycles.flatten.map (Event.processed Mode.poll)))
  else [Event.logNoDevice]

/-- Occurrences of an event in a trace. -/
def countOcc (e : Event) : List Event → Nat
  | [] => 0
  | x :: xs => (if x = e then 1 else 0) + countOcc e xs

/-- The part of a trace strictly after the first fallback log. -/
def afterFallback : List Event → List Event
  | [] => []
  | x :: xs => if x = Event.logFallback then xs else afterFallback xs

/-- Recognizer for a record processed in push mode. -/
def isPushDelivery : Event → Bool
  | Event.processed Mode.push _ => true
  | _ => false

/-! ## The remote store and the startup reconciliation sweep -/

/-- Field test used by the pending query: the field holds this string. -/
def strFieldIs (row : Row) (k s : String) : Bool :=
  match dictGet row k with
  | some (Json.str t) => t == s
  | _ => false

/-- The Poller and reconciliation query filter:
device_id = self and status = pending. -/
def rowPending (deviceId : String) (row : Row) : Bool :=
  strFieldIs row "device_id" deviceId && strFieldIs row "status" "pending"

/-- Store effect of update_command_result on one matched row: set status
to completed, result to the serialized payload (dumps models json.dumps)
and completed_at to the current UTC timestamp. -/
def completeRow (dumps : Json → String) (now : String) (result : Json)
    (row : Row) : Row :=
  dictSet (dictSet (dictSet row "status" (Json.str "completed"))
      "result" (Json.str (dumps result))) "completed_at" (Json.str now)

/-- The eq(id, command_id) match of the completion write. -/
def idMatches (row : Row) (cid : Json) : Bool :=
  match dictGet row "id" with
  | some v => Json.beq v cid
  | none => false

/-- One stored row as transformed by the completion write of one processed
command: rows whose id matches the written command id are completed when
the write reaches the store (writeOk), all other rows are untouched. -/
def rowUpd (jsonParse : String → Option Json)
    (behavior : String → Json → Except String Json)
    (dumps : Json → String) (now : String) (writeOk : Json → Bool)
    (r : Row) (cmd : Row) : Row :=
  match (process_command jsonParse behavior cmd).completion with
  | none => r
  | some (cid, res) =>
    if writeOk cid then
      (if idMatches r cid then completeRow dumps now res r else r)
    else r

/-- One step of the reconciliation sweep: process one fetched record; a
produced completion is always attempted (recorded second component) and
applied to every matching store row when the write reaches the store. -/
def sweepStep (jsonParse : String → Option Json)
    (behavior : String → Json → Except String Json)
    (dumps : Json → String) (now : String) (writeOk : Json → Bool)
    (acc : List Row × List (Json × Json)) (cmd : Row) :
    List Row × List (Json × Json) :=
  match (process_command jsonParse behavior cmd).completion with
  | none => acc
  | some (cid, res) =>
    ((if writeOk cid then
        acc.1.map (fun r => if idMatches r cid then completeRow dumps now res r else r)
      else acc.1),
     acc.2 ++ [(cid, res)])

/-- Shallow embedding of process_pending_commands: fetch the snapshot of
pending rows for this device and run process_command on each, threading
the store through the completion writes. Returns the store afterwards and
the list of completion writes attempted, in order. -/
def process_pending_commands (jsonParse : String → Option Json)
    (behavior : String → Json → Except String Json)
    (dumps : Json → String) (now : String) (writeOk : Json → Bool)
    (deviceId : String) (store : List Row) :
    List Row × List (Json × Json) :=
  (store.filter (rowPending deviceId)).foldl
    (sweepStep jsonParse behavior dumps now writeOk) (store, [])

/-! ## Dispatcher claims -/

/-- Claim C1, counterexample. A well-formed alarm record whose handler
raises is caught at the dispatcher boundary with NO completion write: the
dispatcher does not synthesize a failure result, contradicting the claim
that exactly one completion with success false is still written. -/
theorem C1_counterexample :
    (process_command (fun _ => none) (fun _ _ => Except.error "boom")
      [("id", Json.str "c1"), ("command", Json.str "alarm")]).completion = none ∧
    (process_command (fun _ => none) (fun _ _ => Except.error "boom")
      [("id", Json.str "c1"), ("command", Json.str "alarm")]).handlerCalled =
      some ("alarm", Json.obj []) ∧
    (process_command (fun _ => none) (fun _ _ => Except.error "boom")
      [("id", Json.str "c1"), ("command", Json.str "alarm")]).errorLogged = true :=
  ⟨rfl, rfl, rfl⟩

/-- Claim C1, amended: for every delivered record whose handler raises an
uncaught exception, the dispatcher catches the exception at its boundary
and takes the logged error path; it writes no completion for that record,
and the process never crashes (the embedding is a total function). The
success-false failure results of the spec come from the per-handler
try/except blocks, not from the dispatcher. -/
theorem C1_handler_exception (jp : String → Option Json)
    (bhv : String → Json → Except String Json) (cmd : Row)
    (i : Json) (s : String) (e : String)
    (hid : dictGet cmd "id" = some i)
    (hcmd : dictGet cmd "command" = some (Json.str s))
    (hreg : handlerNames.contains (pyLowerStr s) = true)
    (herr : bhv (pyLowerStr s) (normalizeArgs jp cmd) = Except.error e) :
    process_command jp bhv cmd =
      { handlerCalled := some ((pyLowerStr s), normalizeArgs jp cmd),
        completion := none, errorLogged := true } := by
  unfold process_command
  rw [hid, hcmd]
  simp only [pyLower, hreg, if_true, herr]

/-- Claim C1 witness: the amended theorem applied at a concrete raising
alarm handler. -/
theorem C1_handler_exception_witness :
    ((fun (_ : String) (_ : Json) => (Except.error "boom" : Except String Json))
        (pyLowerStr "alarm") (normalizeArgs (fun _ => none)
          [("id", Json.str "c1w"), ("command", Json.str "alarm")]) =
      Except.error "boom") ∧
    process_command (fun _ => none) (fun _ _ => Except.error "boom")
      [("id", Json.str "c1w"), ("command", Json.str "alarm")] =
      { handlerCalled := some ((pyLowerStr "alarm"), normalizeArgs (fun _ => none)
          [("id", Json.str "c1w"), ("command", Json.str "alarm")]),
        completion := none, errorLogged := true } :=
  ⟨rfl, C1_handler_exception (fun _ => none) (fun _ _ => Except.error "boom")
    [("id", Json.str "c1w"), ("command", Json.str "alarm")]
    (Json.str "c1w") "alarm" "boom" rfl rfl rfl rfl⟩

/-- Claim C2: a record whose lower-cased command name is not a registry key
yields exactly one completion write carrying success false and the error
text Unknown command with the lower-cased name; no handler runs and the
exception path is not taken. -/
theorem C2_unknown_command (jp : String → Option Json)
    (bhv : String → Json → Except String Json) (cmd : Row)
    (i : Json) (s : String)
    (hid : dictGet cmd "id" = some i)
    (hcmd : dictGet cmd "command" = some (Json.str s))
    (hunk : handlerNames.contains (pyLowerStr s) = false) :
    process_command jp bhv cmd =
      { handlerCalled := none,
        completion := some (i, Json.obj
          [("success", Json.bool false),
           ("error", Json.str ("Unknown command: " ++ (pyLowerStr s)))]),
        errorLogged := false } := by
  unfold process_command
  rw [hid, hcmd]
  simp only [pyLower, hunk, Bool.false_eq_true, if_false]

/-- Claim C2 witness at a concrete unregistered command name. -/
theorem C2_unknown_command_witness :
    handlerNames.contains (pyLowerStr "selfdestruct") = false ∧
    process_command (fun _ => none) (fun _ _ => Except.ok Json.null)
      [("id", Json.str "c2"), ("command", Json.str "SelfDestruct")] =
      { handlerCalled := none,
        completion := some (Json.str "c2", Json.obj
          [("success", Json.bool false),
           ("error", Json.str ("Unknown command: " ++ (pyLowerStr "SelfDestruct")))]),
        errorLogged := false } :=
  ⟨rfl, C2_unknown_command (fun _ => none) (fun _ _ => Except.ok Json.null)
    [("id", Json.str "c2"), ("command", Json.str "SelfDestruct")]
    (Json.str "c2") "SelfDestruct" rfl rfl rfl⟩

/-- Claim C5: when the args field is a string, the dispatcher parses it as
JSON before invoking the handler; on parse failure the handler still runs,
with the empty dict; in both cases the written completion is exactly the
result the handler returned, so a malformed string is not a command
failure. -/
theorem C5_string_args (jp : String → Option Json)
    (bhv : String → Json → Except String Json) (cmd : Row)
    (i : Json) (s a : String) (res : Json)
    (hid : dictGet cmd "id" = some i)
    (hcmd : dictGet cmd "command" = some (Json.str s))
    (hreg : handlerNames.contains (pyLowerStr s) = true)
    (hargs : dictGet cmd "args" = some (Json.str a))
    (hok : bhv (pyLowerStr s) (normalizeArgs jp cmd) = Except.ok res) :
    process_command jp bhv cmd =
      { handlerCalled := some ((pyLowerStr s), normalizeArgs jp cmd),
        completion := some (i, res), errorLogged := false } ∧
    (jp a = none → normalizeArgs jp cmd = Json.obj []) ∧
    (∀ v, jp a = some v → normalizeArgs jp cmd = v) := by
  refine ⟨?_, ?_, ?_⟩
  · unfold process_command
    rw [hid, hcmd]
    simp only [pyLower, hreg, if_true, hok]
  · intro hp
    unfold normalizeArgs
    rw [hargs]
    simp only [Option.getD_some, hp]
  · intro v hp
    unfold normalizeArgs
    rw [hargs]
    simp only [Option.getD_some, hp]

/-- Claim C5 witness: a malformed JSON args string still reaches the photo
handler, which receives the empty dict, and its result is written. -/
theorem C5_string_args_witness :
    ((fun (_ : String) (_ : Json) => (Except.ok Json.null : Except String Json))
        (pyLowerStr "photo") (normalizeArgs (fun _ => none)
          [("id", Json.str "c5"), ("command", Json.str "photo"),
           ("args", Json.str "not json")]) = Except.ok Json.null) ∧
    process_command (fun _ => none) (fun _ _ => Except.ok Json.null)
      [("id", Json.str "c5"), ("command", Json.str "photo"),
       ("args", Json.str "not json")] =
      { handlerCalled := some ((pyLowerStr "photo"), normalizeArgs (fun _ => none)
          [("id", Json.str "c5"), ("command", Json.str "photo"),
           ("args", Json.str "not json")]),
        completion := some (Json.str "c5", Json.null), errorLogged := false } ∧
    normalizeArgs (fun _ => none)
      [("id", Json.str "c5"), ("command", Json.str "photo"),
       ("args", Json.str "not json")] = Json.obj [] :=
  ⟨rfl,
   (C5_string_args (fun _ => none) (fun _ _ => Except.ok Json.null)
      [("id", Json.str "c5"), ("command", Json.str "photo"),
       ("args", Json.str "not json")]
      (Json.str "c5") "photo" "not json" Json.null rfl rfl rfl rfl rfl).1,
   (C5_string_args (fun _ => none) (fun _ _ => Except.ok Json.null)
      [("id", Json.str "c5"), ("command", Json.str "photo"),
       ("args", Json.str "not json")]
      (Json.str "c5") "photo" "not json" Json.null rfl rfl rfl rfl rfl).2.1 rfl⟩

/-- Claim C10: process_command is total by construction (it is a function
into DispatchOutcome, so every input dict yields an outcome and no
exception propagates); when the record lacks the id key or the command
key, the resulting outcome is exactly the caught-and-logged one: no
handler runs and no completion write is performed. -/
theorem C10_missing_keys (jp : String → Option Json)
    (bhv : String → Json → Except String Json) (cmd : Row)
    (h : dictGet cmd "id" = none ∨ dictGet cmd "command" = none) :
    process_command jp bhv cmd =
      { handlerCalled := none, completion := none, errorLogged := true } := by
  rcases h with h | h
  · unfold process_command
    rw [h]
    rfl
  · unfold process_command
    cases hid : dictGet cmd "id" with
    | none => rfl
    | some i => rw [h]; rfl

/-- Claim C10 witness: the empty record is caught with no handler call and
no completion write. -/
theorem C10_missing_keys_witness :
    (dictGet [] "id" = none ∨ dictGet [] "command" = none) ∧
    process_command (fun _ => none) (fun _ _ => Except.ok Json.null) [] =
      { handlerCalled := none, completion := none, errorLogged := true } :=
  ⟨Or.inl rfl,
   C10_missing_keys (fun _ => none) (fun _ _ => Except.ok Json.null) [] (Or.inl rfl)⟩

/-! ## Stop, stopfind, photo and background loop claims -/

/-- Claim C3, counterexample. With no background task active and the
sd.stop() call returning normally (the usual case), cmd_stop reports
stopped equal to the audio singleton and the message Stopped audio, not
the empty list and No active commands to stop that the claim states. -/
theorem C3_counterexample :
    (cmd_stop true (fun _ => false)).stopped = ["audio"] ∧
    (cmd_stop true (fun _ => false)).message = "Stopped: audio" ∧
    (cmd_stop true (fun _ => false)).message ≠ "No active commands to stop" := by
  refine ⟨rfl, rfl, by decide⟩

/-- Claim C3, amended: issuing stop with the alarm slot active clears the
alarm slot (the cancellation signal the loop polls) and reports alarm in
the stopped list; issuing stop with no background task active reports
stopped equal to the empty list and the message No active commands to
stop only when the sd.stop() call raises, and otherwise reports exactly
the audio entry with message Stopped audio. -/
theorem C3_stop (sdOk : Bool) (m : String → Bool) :
    (m "alarm" = true →
      "alarm" ∈ (cmd_stop sdOk m).stopped ∧
      (cmd_stop sdOk m).slots "alarm" = false) ∧
    (m "alarm" = false → m "findme" = false →
      (cmd_stop sdOk m).stopped = (if sdOk then ["audio"] else []) ∧
      (cmd_stop sdOk m).message =
        (if sdOk then "Stopped: audio" else "No active commands to stop")) := by
  constructor
  · intro hA
    unfold cmd_stop
    simp only [hA, if_true]
    constructor
    · cases hF : setSlot m "alarm" false "findme" <;> cases sdOk <;>
        simp [hF, List.mem_append]
    · cases hF : setSlot m "alarm" false "findme" <;>
        simp [hF, setSlot]
  · intro hA hF
    unfold cmd_stop
    have hF2 : setSlot m "alarm" false "findme" = false := by
      simp [setSlot, hF]
    simp only [hA, Bool.false_eq_true, if_false, hF, hF2]
    cases sdOk <;> exact ⟨by decide, by decide⟩

/-- Claim C3 witness: the amended theorem at an active alarm slot, and at
the empty slot map with a raising sd.stop(). -/
theorem C3_stop_witness :
    ("alarm" ∈ (cmd_stop true (fun k => k == "alarm")).stopped ∧
      (cmd_stop true (fun k => k == "alarm")).slots "alarm" = false) ∧
    ((cmd_stop false (fun _ => false)).stopped = [] ∧
      (cmd_stop false (fun _ => false)).message = "No active commands to stop") :=
  ⟨(C3_stop true (fun k => k == "alarm")).1 rfl,
   by simpa using (C3_stop false (fun _ => false)).2 rfl rfl⟩

/-- Claim C7: for a photo record whose count argument exceeds 5, the
handler clamps the count to 5 and attempts at most 5 webcam captures: the
read loop runs exactly 5 times when the webcam opens and 0 times when it
does not. -/
theorem C7_photo_clamp (readOk : Nat → Bool) (wo : Bool) (args : Json)
    (c : Int) (hc : argInt args "count" 1 = some c) (hgt : 5 < c) :
    min c 5 = 5 ∧
    (cmd_photo readOk wo args).1 ≤ 5 ∧
    (wo = true → (cmd_photo readOk wo args).1 = 5) := by
  have hmin : min c 5 = 5 := min_eq_right (le_of_lt hgt)
  refine ⟨hmin, ?_, ?_⟩
  · unfold cmd_photo
    rw [hc]
    cases wo <;> simp [hmin]
  · intro hwo
    subst hwo
    unfold cmd_photo
    rw [hc]
    simp [hmin]

/-- Claim C7 witness: the spec scenario count equal to 10 gives exactly 5
capture attempts. -/
theorem C7_photo_clamp_witness :
    (argInt (Json.obj [("count", Json.num 10)]) "count" 1 = some 10 ∧ (5 : Int) < 10) ∧
    (cmd_photo (fun _ => true) true (Json.obj [("count", Json.num 10)])).1 = 5 :=
  ⟨⟨rfl, by decide⟩,
   (C7_photo_clamp (fun _ => true) true (Json.obj [("count", Json.num 10)])
      10 rfl (by decide)).2.2 rfl⟩

/-- Claim C8: cmd_stopfind clears exactly the findme slot: every other
slot keeps its previous value, and the returned result is the fixed
success dict with message Find Me stopped. -/
theorem C8_stopfind_frame (m : String → Bool) :
    (cmd_stopfind m).1 "findme" = false ∧
    (∀ k, k ≠ "findme" → (cmd_stopfind m).1 k = m k) ∧
    (cmd_stopfind m).2 = Json.obj
      [("success", Json.bool true), ("message", Json.str "Find Me stopped")] := by
  refine ⟨?_, ?_, rfl⟩
  · simp [cmd_stopfind, setSlot]
  · intro k hk
    simp [cmd_stopfind, setSlot, hk]

/-- Claim C8 witness: with alarm and findme both active, stopfind clears
findme and leaves alarm untouched. -/
theorem C8_stopfind_frame_witness :
    ("alarm" ≠ "findme") ∧
    (cmd_stopfind (fun _ => true)).1 "findme" = false ∧
    (cmd_stopfind (fun _ => true)).1 "alarm" = true :=
  ⟨by decide,
   (C8_stopfind_frame (fun _ => true)).1,
   (C8_stopfind_frame (fun _ => true)).2.1 "alarm" (by decide)⟩

/-- Claim C9: whenever a background loop exits, whether by observing
cancellation or because its readings (duration) ran out, it writes false
to its own slot unconditionally, regardless of the current slot value; in
particular a stale instance exiting after a newer instance set the slot
true clears the new active flag. Every other slot is untouched. -/
theorem C9_loop_exit_clears_slot (readings : List Bool) (m : String → Bool) :
    (play_alarm readings m).2 "alarm" = false ∧
    (find_loop readings m).2 "findme" = false ∧
    (∀ k, k ≠ "alarm" → (play_alarm readings m).2 k = m k) ∧
    (∀ k, k ≠ "findme" → (find_loop readings m).2 k = m k) ∧
    (play_alarm readings (setSlot m "alarm" true)).2 "alarm" = false ∧
    (find_loop readings (setSlot m "findme" true)).2 "findme" = false := by
  refine ⟨by simp [play_alarm, setSlot], by simp [find_loop, setSlot],
    ?_, ?_, by simp [play_alarm, setSlot], by simp [find_loop, setSlot]⟩
  · intro k hk
    simp [play_alarm, setSlot, hk]
  · intro k hk
    simp [find_loop, setSlot, hk]

/-- Claim C9 witness: a cancelled alarm loop whose slot was re-activated
by a newer instance still clears the alarm slot on exit, and leaves the
findme slot alone. -/
theorem C9_loop_exit_clears_slot_witness :
    ("findme" ≠ "alarm") ∧
    (play_alarm [true, false] (setSlot (fun _ => false) "alarm" true)).2 "alarm" = false ∧
    (play_alarm [true, false] (fun _ => true)).2 "findme" = true :=
  ⟨by decide,
   (C9_loop_exit_clears_slot [true, false] (fun _ => false)).2.2.2.2.1,
   (C9_loop_exit_clears_slot [true, false] (fun _ => true)).2.2.1 "findme" (by decide)⟩

/-! ## Trace lemmas for the listen control flow -/

theorem countOcc_append (e : Event) (a b : List Event) :
    countOcc e (a ++ b) = countOcc e a + countOcc e b := by
  induction a with
  | nil => simp [countOcc]
  | cons x xs ih => simp [countOcc, ih, Nat.add_assoc]

theorem countOcc_map_sweep (md : Mode) (l : List String) :
    countOcc Event.sweep (l.map (Event.processed md)) = 0 := by
  induction l with
  | nil => rfl
  | cons x xs ih => simp [countOcc, ih]

theorem countOcc_map_logFallback (md : Mode) (l : List String) :
    countOcc Event.logFallback (l.map (Event.processed md)) = 0 := by
  induction l with
  | nil => rfl
  | cons x xs ih => simp [countOcc, ih]

theorem countOcc_flatten_map_sweep (md : Mode) (ls : List (List String)) :
    countOcc Event.sweep (List.map (List.map (Event.processed md)) ls).flatten = 0 := by
  induction ls with
  | nil => rfl
  | cons x xs ih => simp [countOcc_append, countOcc_map_sweep, ih]

theorem countOcc_flatten_map_logFallback (md : Mode) (ls : List (List String)) :
    countOcc Event.logFallback
      (List.map (List.map (Event.processed md)) ls).flatten = 0 := by
  induction ls with
  | nil => rfl
  | cons x xs ih => simp [countOcc_append, countOcc_map_logFallback, ih]

theorem afterFallback_map_processed (md : Mode) (l : List String)
    (rest : List Event) :
    afterFallback (l.map (Event.processed md) ++ rest) = afterFallback rest := by
  induction l with
  | nil => rfl
  | cons x xs ih => simpa [afterFallback] using ih

theorem filter_isPushDelivery_map_poll (l : List String) :
    (l.map (Event.processed Mode.poll)).filter isPushDelivery = [] := by
  induction l with
  | nil => rfl
  | cons x xs ih => simp [isPushDelivery, ih]

theorem filter_isPushDelivery_map_push (l : List String) :
    (l.map (Event.processed Mode.push)).filter isPushDelivery =
      l.map (Event.processed Mode.push) := by
  induction l with
  | nil => rfl
  | cons x xs ih => simp [isPushDelivery, ih]

/-- Claim C4: when the push transport is attempted and fails (at setup or
while running), the fallback transition is logged exactly once, every
event after the fallback log is a poll-mode delivery (the whole remaining
process lifetime is served by the Poller, with no switch back to push),
and the push-mode deliveries of the entire run are exactly the ones made
before the failure. -/
theorem C4_push_fallback (msg : String) (pushCmds : List String)
    (pollCycles : List (List String)) :
    countOcc Event.logFallback
      (listen true true (RealtimeOutcome.failed msg) pushCmds pollCycles) = 1 ∧
    afterFallback
      (listen true true (RealtimeOutcome.failed msg) pushCmds pollCycles) =
      pollCycles.flatten.map (Event.processed Mode.poll) ∧
    (listen true true (RealtimeOutcome.failed msg) pushCmds pollCycles).filter
      isPushDelivery = pushCmds.map (Event.processed Mode.push) := by
  refine ⟨?_, ?_, ?_⟩
  · simp [listen, countOcc, countOcc_append, countOcc_map_logFallback,
      countOcc_flatten_map_logFallback]
  · simp [listen, afterFallback, afterFallback_map_processed]
  · simp [listen, isPushDelivery, List.filter_append,
      filter_isPushDelivery_map_push, filter_isPushDelivery_map_poll]

/-! ## Store lemmas for the reconciliation sweep -/

mutual
theorem Json.beq_refl : ∀ v : Json, Json.beq v v = true
  | .null => rfl
  | .bool b => by simp [Json.beq]
  | .num n => by simp [Json.beq]
  | .str s => by simp [Json.beq]
  | .arr xs => by simp [Json.beq, Json.beqList_refl xs]
  | .obj fs => by simp [Json.beq, Json.beqFields_refl fs]

theorem Json.beqList_refl : ∀ l : List Json, Json.beqList l l = true
  | [] => rfl
  | x :: xs => by simp [Json.beqList, Json.beq_refl x, Json.beqList_refl xs]

theorem Json.beqFields_refl : ∀ l : List (String × Json), Json.beqFields l l = true
  | [] => rfl
  | (k, v) :: xs => by simp [Json.beqFields, Json.beq_refl v, Json.beqFields_refl xs]
end

theorem dictGet_dictSet_self (d : Row) (key : String) (v : Json) :
    dictGet (dictSet d key v) key = some v := by
  induction d with
  | nil => simp [dictSet, dictGet]
  | cons p rest ih =>
    obtain ⟨k2, v2⟩ := p
    by_cases h : k2 = key
    · simp [dictSet, h, dictGet]
    · simp [dictSet, h, dictGet, ih]

theorem dictGet_dictSet_other (d : Row) (key k : String) (v : Json)
    (h : k ≠ key) :
    dictGet (dictSet d key v) k = dictGet d k := by
  induction d with
  | nil => simp [dictSet, dictGet, Ne.symm h]
  | cons p rest ih =>
    obtain ⟨k2, v2⟩ := p
    by_cases h2 : k2 = key
    · subst h2
      simp [dictSet, dictGet, Ne.symm h]
    · simp only [dictSet, if_neg h2]
      by_cases h3 : k2 = k
      · simp [dictGet, h3]
      · simp [dictGet, h3, ih]

theorem completeRow_status (dumps : Json → String) (now : String)
    (res : Json) (row : Row) :
    dictGet (completeRow dumps now res row) "status" =
      some (Json.str "completed") := by
  unfold completeRow
  rw [dictGet_dictSet_other _ _ _ _ (by decide),
      dictGet_dictSet_other _ _ _ _ (by decide),
      dictGet_dictSet_self]

theorem completeRow_id (dumps : Json → String) (now : String)
    (res : Json) (row : Row) :
    dictGet (completeRow dumps now res row) "id" = dictGet row "id" := by
  unfold completeRow
  rw [dictGet_dictSet_other _ _ _ _ (by decide),
      dictGet_dictSet_other _ _ _ _ (by decide),
      dictGet_dictSet_other _ _ _ _ (by decide)]

section SweepLemmas

variable (jp : String → Option Json)
variable (bhv : String → Json → Except String Json)
variable (dumps : Json → String) (now : String) (w : Json → Bool)

theorem rowUpd_cases (r cmd : Row) :
    rowUpd jp bhv dumps now w r cmd = r ∨
    ∃ res, rowUpd jp bhv dumps now w r cmd = completeRow dumps now res r := by
  unfold rowUpd
  cases hc : (process_command jp bhv cmd).completion with
  | none => exact Or.inl rfl
  | some p =>
    obtain ⟨cid, res⟩ := p
    cases hw : w cid with
    | false => exact Or.inl (by simp [hw])
    | true =>
      cases hm : idMatches r cid with
      | false => exact Or.inl (by simp [hw, hm])
      | true => exact Or.inr ⟨res, by simp [hw, hm]⟩

theorem rowUpd_id (r cmd : Row) :
    dictGet (rowUpd jp bhv dumps now w r cmd) "id" = dictGet r "id" := by
  rcases rowUpd_cases jp bhv dumps now w r cmd with h | ⟨res, h⟩
  · rw [h]
  · rw [h, completeRow_id]

theorem foldRow_status_preserved (cmds : List Row) (r : Row)
    (h : dictGet r "status" = some (Json.str "completed")) :
    dictGet (cmds.foldl (rowUpd jp bhv dumps now w) r) "status" =
      some (Json.str "completed") := by
  induction cmds generalizing r with
  | nil => simpa using h
  | cons c rest ih =>
    rw [List.foldl_cons]
    apply ih
    rcases rowUpd_cases jp bhv dumps now w r c with hc | ⟨res, hc⟩
    · rw [hc]; exact h
    · rw [hc]; exact completeRow_status dumps now res r

theorem foldRow_eq_or_completed (cmds : List Row) (r : Row) :
    cmds.foldl (rowUpd jp bhv dumps now w) r = r ∨
    dictGet (cmds.foldl (rowUpd jp bhv dumps now w) r) "status" =
      some (Json.str "completed") := by
  induction cmds generalizing r with
  | nil => exact Or.inl rfl
  | cons c rest ih =>
    rw [List.foldl_cons]
    rcases rowUpd_cases jp bhv dumps now w r c with hc | ⟨res, hc⟩
    · rw [hc]; exact ih r
    · right
      rw [hc]
      exact foldRow_status_preserved jp bhv dumps now w rest _
        (completeRow_status dumps now res r)

theorem foldRow_self_completes (hW : ∀ cid, w cid = true)
    (cmds : List Row) (cmd : Row) (cid res : Json)
    (hcomp : (process_command jp bhv cmd).completion = some (cid, res)) :
    ∀ r : Row, cmd ∈ cmds → idMatches r cid = true →
    dictGet (cmds.foldl (rowUpd jp bhv dumps now w) r) "status" =
      some (Json.str "completed") := by
  induction cmds with
  | nil => intro r hmem; cases hmem
  | cons c rest ih =>
    intro r hmem hid
    rw [List.foldl_cons]
    rcases List.mem_cons.mp hmem with heq | hmem2
    · subst heq
      have hfire : rowUpd jp bhv dumps now w r cmd = completeRow dumps now res r := by
        unfold rowUpd
        rw [hcomp]
        simp [hW cid, hid]
      rw [hfire]
      exact foldRow_status_preserved jp bhv dumps now w rest _
        (completeRow_status dumps now res r)
    · refine ih _ hmem2 ?_
      unfold idMatches at hid ⊢
      rw [rowUpd_id]
      exact hid

theorem completion_id (cmd : Row) (cid res : Json)
    (h : (process_command jp bhv cmd).completion = some (cid, res)) :
    dictGet cmd "id" = some cid := by
  unfold process_command at h
  split at h
  · simp [caughtOutcome] at h
  · rename_i i heq
    split at h
    · simp [caughtOutcome] at h
    · split at h
      · simp [caughtOutcome] at h
      · split at h
        · simp only [] at h
          split at h
          · simp at h
          · simp only [Option.some.injEq, Prod.mk.injEq] at h
            rw [heq, h.1]
        · simp only [Option.some.injEq, Prod.mk.injEq] at h
          rw [heq, h.1]

theorem sweepComps (cmds st : List Row) (cs : List (Json × Json)) :
    (cmds.foldl (sweepStep jp bhv dumps now w) (st, cs)).2 =
      cs ++ cmds.filterMap (fun cmd => (process_command jp bhv cmd).completion) := by
  induction cmds generalizing st cs with
  | nil => simp
  | cons c rest ih =>
    rw [List.foldl_cons]
    cases hc : (process_command jp bhv c).completion with
    | none =>
      rw [show sweepStep jp bhv dumps now w (st, cs) c = (st, cs) by
        simp [sweepStep, hc]]
      rw [ih, List.filterMap_cons, hc]
    | some p =>
      obtain ⟨cid, res⟩ := p
      rw [show sweepStep jp bhv dumps now w (st, cs) c =
          ((if w cid then
              st.map (fun r => if idMatches r cid then completeRow dumps now res r else r)
            else st), cs ++ [(cid, res)]) by
        simp [sweepStep, hc]]
      rw [ih, List.filterMap_cons, hc, List.append_assoc, List.singleton_append]

theorem sweepStore (cmds st : List Row) (cs : List (Json × Json)) :
    (cmds.foldl (sweepStep jp bhv dumps now w) (st, cs)).1 =
      st.map (fun r => cmds.foldl (rowUpd jp bhv dumps now w) r) := by
  induction cmds generalizing st cs with
  | nil => simp
  | cons c rest ih =>
    rw [List.foldl_cons]
    cases hc : (process_command jp bhv c).completion with
    | none =>
      rw [show sweepStep jp bhv dumps now w (st, cs) c = (st, cs) by
        simp [sweepStep, hc]]
      rw [ih]
      apply List.map_congr_left
      intro r _
      rw [List.foldl_cons]
      congr 1
      unfold rowUpd
      rw [hc]
    | some p =>
      obtain ⟨cid, res⟩ := p
      cases hw : w cid with
      | false =>
        rw [show sweepStep jp bhv dumps now w (st, cs) c = (st, cs ++ [(cid, res)]) by
          simp [sweepStep, hc, hw]]
        rw [ih]
        apply List.map_congr_left
        intro r _
        rw [List.foldl_cons]
        congr 1
        unfold rowUpd
        rw [hc]
        simp [hw]
      | true =>
        rw [show sweepStep jp bhv dumps now w (st, cs) c =
            (st.map (fun r => if idMatches r cid then completeRow dumps now res r else r),
             cs ++ [(cid, res)]) by
          simp [sweepStep, hc, hw]]
        rw [ih, List.map_map]
        apply List.map_congr_left
        intro r _
        rw [List.foldl_cons]
        simp only [Function.comp]
        congr 1
        unfold rowUpd
        rw [hc]
        simp [hw]

theorem rowPending_completed_false (d : String) (row : Row)
    (h : dictGet row "status" = some (Json.str "completed")) :
    rowPending d row = false := by
  unfold rowPending strFieldIs
  rw [h]
  simp

end SweepLemmas

/-- Claim C6: the startup reconciliation sweep runs exactly once and is
the first event of listen, before any transport is selected or any live
record processed; and the sweep is idempotent: running it a second time
on the store left by a first sweep whose completion writes all reached
the store attempts zero additional completions, whatever the second run
would do with its own writes. -/
theorem C6_sweep_once_idempotent :
    (∀ (rAvail : Bool) (outcome : RealtimeOutcome) (pushCmds : List String)
        (pollCycles : List (List String)),
      (listen true rAvail outcome pushCmds pollCycles).head? = some Event.sweep ∧
      countOcc Event.sweep (listen true rAvail outcome pushCmds pollCycles) = 1) ∧
    (∀ (jp : String → Option Json) (bhv : String → Json → Except String Json)
        (dumps : Json → String) (now : String) (w1 w2 : Json → Bool)
        (d : String) (store : List Row),
      (∀ cid, w1 cid = true) →
      (process_pending_commands jp bhv dumps now w2 d
          (process_pending_commands jp bhv dumps now w1 d store).1).2 = []) := by
  constructor
  · intro rAvail outcome pushCmds pollCycles
    constructor
    · simp [listen]
    · cases rAvail <;> cases outcome <;>
        simp [listen, countOcc, countOcc_append, countOcc_map_sweep,
          countOcc_flatten_map_sweep]
  · intro jp bhv dumps now w1 w2 d store hW
    have hmap : (process_pending_commands jp bhv dumps now w1 d store).1 =
        store.map (fun r =>
          (store.filter (rowPending d)).foldl (rowUpd jp bhv dumps now w1) r) := by
      rw [process_pending_commands, sweepStore]
    rw [process_pending_commands, sweepComps, List.nil_append,
      List.filterMap_eq_nil_iff]
    intro cmd hcmd
    rw [List.mem_filter] at hcmd
    obtain ⟨hmem, hpend⟩ := hcmd
    rw [hmap] at hmem
    obtain ⟨r0, hr0, rfl⟩ := List.mem_map.mp hmem
    rcases foldRow_eq_or_completed jp bhv dumps now w1
        (store.filter (rowPending d)) r0 with heq | hcompl
    · rw [heq] at hpend ⊢
      cases hcomp : (process_command jp bhv r0).completion with
      | none => rfl
      | some p =>
        obtain ⟨cid, res⟩ := p
        exfalso
        have hid : dictGet r0 "id" = some cid :=
          completion_id jp bhv r0 cid res hcomp
        have hidm : idMatches r0 cid = true := by
          unfold idMatches
          rw [hid]
          exact Json.beq_refl cid
        have hr0p : r0 ∈ store.filter (rowPending d) :=
          List.mem_filter.mpr ⟨hr0, hpend⟩
        have hdone := foldRow_self_completes jp bhv dumps now w1 hW
          (store.filter (rowPending d)) r0 cid res hcomp r0 hr0p hidm
        rw [heq] at hdone
        rw [rowPending_completed_false d r0 hdone] at hpend
        exact Bool.noConfusion hpend
    · exfalso
      rw [rowPending_completed_false d _ hcompl] at hpend
      exact Bool.noConfusion hpend

/-- Claim C6 witness: a one-row pending store is completed by the first
sweep; the second sweep attempts no completions; and the listen trace
starts with the single sweep event. -/
theorem C6_sweep_once_idempotent_witness :
    ((listen true true RealtimeOutcome.keyboardInterrupt [] []).head? =
        some Event.sweep ∧
      countOcc Event.sweep
        (listen true true RealtimeOutcome.keyboardInterrupt [] []) = 1) ∧
    ((∀ cid, (fun (_ : Json) => true) cid = true) ∧
      (process_pending_commands (fun _ => none) (fun _ _ => Except.ok Json.null)
          (fun _ => "serialized") "t0" (fun _ => true) "dev"
          (process_pending_commands (fun _ => none) (fun _ _ => Except.ok Json.null)
            (fun _ => "serialized") "t0" (fun _ => true) "dev"
            [[("id", Json.str "c6"), ("device_id", Json.str "dev"),
              ("command", Json.str "status"), ("status", Json.str "pending")]]).1).2 =
        []) :=
  ⟨(C6_sweep_once_idempotent.1 true RealtimeOutcome.keyboardInterrupt [] []),
   ⟨fun _ => rfl,
    C6_sweep_once_idempotent.2 (fun _ => none) (fun _ _ => Except.ok Json.null)
      (fun _ => "serialized") "t0" (fun _ => true) (fun _ => true) "dev"
      [[("id", Json.str "c6"), ("device_id", Json.str "dev"),
        ("command", Json.str "status"), ("status", Json.str "pending")]]
      (fun _ => rfl)⟩⟩

end LoginMonitor
